import Mathlib

/-!
A shallow embedding of `src/keybindings.js`: a `Multimap` from strings to
arrays of values backed by a plain object literal `{}`, and a
`KeyBindings` registry that stores event handlers for named actions and
dispatches a detected shortcut to every handler registered for its
action. The backing object inherits from `Object.prototype`, so a
property read `this.map[key]` can yield an own array, a truthy non-array
value inherited from the prototype (for keys such as `"toString"`), or
`undefined`; the embedding models all three outcomes.
-/

/-- A JavaScript runtime value as far as the registry is concerned: a
function (invocable), identified by a number so that distinct handlers
compare unequal under strict equality, or a non-function value carrying
its string rendering. -/
inductive JSValue where
  | func (id : Nat)
  | nonFunc (s : String)
deriving DecidableEq

/-- The check `typeof eventHandler === 'function'` used by
`addEventHandler`. -/
def jsTypeofIsFunction : JSValue → Bool
  | .func _ => true
  | .nonFunc _ => false

/-- Rendering used when a thrown value is built by string concatenation
(`eventHandler + ' is not a function'`). -/
def JSValue.display : JSValue → String
  | .func i => "function " ++ toString i
  | .nonFunc s => s

/-- An error escaping a registry operation: a TypeError raised by the
runtime (calling a missing method such as `.forEach`, `.push` or
`.indexOf` on a value that does not have it), or an explicitly thrown
value (`addEventHandler` throws a string). -/
inductive JSError where
  | typeError
  | thrown (msg : String)
deriving DecidableEq

/-- What the property read `this.map[key]` evaluates to: `undefined`, an
own array property, or a (truthy, non-array) value inherited from
`Object.prototype`. -/
inductive JSProp where
  | undefined
  | array (l : List JSValue)
  | inherited
deriving DecidableEq

/-- The list an own array property holds; `[]` for the other cases. -/
def JSProp.arrayD : JSProp → List JSValue
  | .array l => l
  | _ => []

/-- Whether the property read produced an own array. -/
def JSProp.isArray : JSProp → Bool
  | .array _ => true
  | _ => false

/-- The property names a plain object literal `{}` inherits from
`Object.prototype`: reading them on a fresh object yields a truthy
non-array value (a function, or the prototype object for `__proto__`),
not `undefined`. -/
def objectPrototypeKeys : List String :=
  ["constructor", "hasOwnProperty", "isPrototypeOf", "propertyIsEnumerable",
    "toLocaleString", "toString", "valueOf", "__proto__",
    "__defineGetter__", "__defineSetter__", "__lookupGetter__", "__lookupSetter__"]

/-- The own properties of `this.map`. The code only ever assigns arrays
(`this.map[key] = []` followed by pushes and splices), so the own-property
store maps each assigned key to its array; property reads go through
`Multimap.read`, which adds the prototype chain. -/
abbrev Multimap := String → Option (List JSValue)

/-- `new Multimap()`: `this.map = {}` — no own properties (the object
still inherits from `Object.prototype`; see `Multimap.read`). -/
def Multimap.empty : Multimap := fun _ => none

/-- The property read `this.map[key]`: the own array if the key was
assigned, otherwise the value inherited from `Object.prototype` when the
key is one of its property names, otherwise `undefined`. -/
def Multimap.read (m : Multimap) (key : String) : JSProp :=
  match m key with
  | some l => .array l
  | none => if objectPrototypeKeys.contains key then .inherited else .undefined

/-- `get(key)`: `return this.map[key];` -/
def Multimap.get (m : Multimap) (key : String) : JSProp :=
  m.read key

/-- `put(key, value)`: `if (!this.map[key]) this.map[key] = [];` then
`this.map[key].push(value);`. `undefined` is falsy, so the own array is
created and the value pushed; an own array (even empty) is truthy and is
pushed onto; an inherited `Object.prototype` value is truthy too, so
array creation is skipped and `.push` on the non-array raises a
TypeError. -/
def Multimap.put (m : Multimap) (key : String) (value : JSValue) : Except JSError Multimap :=
  match m.read key with
  | .undefined => .ok (fun k => if k = key then some [value] else m k)
  | .array array => .ok (fun k => if k = key then some (array ++ [value]) else m k)
  | .inherited => .error .typeError

/-- `Array.prototype.indexOf`: the index of the first strictly-equal
element, or `-1` when the value does not occur. -/
def jsIndexOf (array : List JSValue) (value : JSValue) : Int :=
  match array with
  | [] => -1
  | x :: xs =>
    if x = value then 0
    else
      let r := jsIndexOf xs value
      if r < 0 then -1 else r + 1

/-- `remove(key, value)`: `const array = this.map[key]; if (array) {
const index = array.indexOf(value); if (index >= 0) array.splice(index,
1); }`. `undefined` is falsy, a silent no-op; an own array has its first
occurrence of the value spliced out, if any; an inherited
`Object.prototype` value is truthy, and `.indexOf` on it raises a
TypeError. -/
def Multimap.remove (m : Multimap) (key : String) (value : JSValue) : Except JSError Multimap :=
  match m.read key with
  | .undefined => .ok m
  | .inherited => .error .typeError
  | .array array =>
    let index := jsIndexOf array value
    if 0 ≤ index then
      .ok (fun k => if k = key then some (array.eraseIdx index.toNat) else m k)
    else .ok m

/-- One configured binding: an action name, and one key sequence or an
array of key sequences (opaque to this module, handed to Mousetrap). -/
structure Binding where
  action : String
  keys : Sum String (List String)
deriving DecidableEq

/-- The registry: the handler multimap `eventHandlers` and the stored
`bindings` array. -/
structure KeyBindings where
  eventHandlers : Multimap
  bindings : List Binding

/-- The constructor: `this.eventHandlers = new Multimap()`,
`this.bindings = bindings`; each binding's keys are registered with
Mousetrap with a trampoline `() => handle(e.action, this.eventHandlers)`
that reads the handler map at dispatch time. -/
def KeyBindings.create (bindings : List Binding) : KeyBindings :=
  { eventHandlers := Multimap.empty, bindings := bindings }

/-- The (keys, action) pairs the constructor registers with
`Mousetrap.bind`, in input order. -/
def KeyBindings.mousetrapRegistrations (kb : KeyBindings) : List (Sum String (List String) × String) :=
  kb.bindings.map (fun e => (e.keys, e.action))

/-- `forEach(handler => handler(action))` over an array of handlers:
calling a non-function raises a TypeError; calling a function records the
invocation `(handler, action)` in order. The result is the invocation
trace. -/
def runHandlers (action : String) : List JSValue → Except JSError (List (JSValue × String))
  | [] => .ok []
  | h :: rest =>
    match h with
    | .nonFunc _ => .error .typeError
    | .func i =>
      match runHandlers action rest with
      | .ok t => .ok ((JSValue.func i, action) :: t)
      | .error e => .error e

/-- The internal `handle(action, handlers)`:
`handlers.get(action).forEach(handler => handler(action))`. When `get`
does not yield an array — `undefined` for an unknown non-prototype key,
or the inherited `Object.prototype` value for keys such as `"toString"`
— `.forEach` is not a function on it and a TypeError is raised. -/
def handle (action : String) (handlers : Multimap) : Except JSError (List (JSValue × String)) :=
  match handlers.get action with
  | .undefined => .error .typeError
  | .inherited => .error .typeError
  | .array hs => runHandlers action hs

/-- The dispatch step: the callback registered for a binding with this
action, applied to the registry's current handler map. -/
def KeyBindings.dispatch (kb : KeyBindings) (action : String) :
    Except JSError (List (JSValue × String)) :=
  handle action kb.eventHandlers

/-- `addEventHandler(action, eventHandler)`: throw
`eventHandler + ' is not a function'` when the handler is not a function,
otherwise `this.eventHandlers.put(action, eventHandler)` — which itself
raises a TypeError when the action name is shadowed by an inherited
`Object.prototype` property. -/
def KeyBindings.addEventHandler (kb : KeyBindings) (action : String) (eventHandler : JSValue) :
    Except JSError KeyBindings :=
  if jsTypeofIsFunction eventHandler = false then
    .error (.thrown (eventHandler.display ++ " is not a function"))
  else
    match kb.eventHandlers.put action eventHandler with
    | .ok m => .ok { kb with eventHandlers := m }
    | .error e => .error e

/-- `removeShortcutHandler(action, eventHandler)`:
`this.eventHandlers.remove(action, eventHandler)`. -/
def KeyBindings.removeShortcutHandler (kb : KeyBindings) (action : String) (eventHandler : JSValue) :
    Except JSError KeyBindings :=
  match kb.eventHandlers.remove action eventHandler with
  | .ok m => .ok { kb with eventHandlers := m }
  | .error e => .error e

/-- `shortcutHandlers(action)`: `return this.eventHandlers.get(action)`. -/
def KeyBindings.shortcutHandlers (kb : KeyBindings) (action : String) : JSProp :=
  kb.eventHandlers.get action

/-- One registry API call. A call that throws leaves the registry
unchanged (the exception propagates to the caller before any mutation). -/
inductive RegOp where
  | add (action : String) (h : JSValue)
  | rem (action : String) (h : JSValue)
deriving DecidableEq

def KeyBindings.applyOp (kb : KeyBindings) : RegOp → KeyBindings
  | .add a h =>
    match kb.addEventHandler a h with
    | .ok kb2 => kb2
    | .error _ => kb
  | .rem a h =>
    match kb.removeShortcutHandler a h with
    | .ok kb2 => kb2
    | .error _ => kb

def KeyBindings.applyOps (kb : KeyBindings) (ops : List RegOp) : KeyBindings :=
  ops.foldl KeyBindings.applyOp kb

/-- The spec's removal semantics in its own words: remove the first
occurrence of the value from the collection, by equality. Stated
separately from `Multimap.remove` so the latter can be compared to it. -/
def eraseFirstOccurrence (value : JSValue) : List JSValue → List JSValue
  | [] => []
  | x :: xs => if x = value then xs else x :: eraseFirstOccurrence value xs

/-- Every value stored in an own array of the multimap is a function. -/
def Multimap.allFunctions (m : Multimap) : Prop :=
  ∀ (k : String) (l : List JSValue), m k = some l →
    ∀ v ∈ l, jsTypeofIsFunction v = true

/-- The number of registrations of a handler in a `get` result (a
non-array read counts as zero registrations). -/
def handlerCount (p : JSProp) (h : JSValue) : Nat :=
  p.arrayD.count h

/-! ### List-level lemmas -/

theorem jsIndexOf_eraseIdx (v : JSValue) (l : List JSValue) :
    (if 0 ≤ jsIndexOf l v then l.eraseIdx (jsIndexOf l v).toNat else l)
      = eraseFirstOccurrence v l := by
  induction l with
  | nil => simp [jsIndexOf, eraseFirstOccurrence]
  | cons x xs ih =>
    by_cases hx : x = v
    · simp [jsIndexOf, eraseFirstOccurrence, hx]
    · rw [eraseFirstOccurrence, if_neg hx]
      by_cases hr : jsIndexOf xs v < 0
      · have hixs : ¬ 0 ≤ jsIndexOf xs v := by omega
        rw [if_neg hixs] at ih
        have hj : jsIndexOf (x :: xs) v = -1 := by
          simp [jsIndexOf, hx, hr]
        rw [hj]
        simp [← ih]
      · have hixs : 0 ≤ jsIndexOf xs v := by omega
        rw [if_pos hixs] at ih
        have hj : jsIndexOf (x :: xs) v = jsIndexOf xs v + 1 := by
          simp only [jsIndexOf, hx, if_false]
          rw [if_neg hr]
        rw [hj, if_pos (by omega)]
        have ht : (jsIndexOf xs v + 1).toNat = (jsIndexOf xs v).toNat + 1 := by omega
        rw [ht, List.eraseIdx_cons_succ, ih]

theorem jsIndexOf_neg_of_not_mem {v : JSValue} {l : List JSValue}
    (h : v ∉ l) : jsIndexOf l v < 0 := by
  induction l with
  | nil => simp [jsIndexOf]
  | cons x xs ih =>
    rw [List.mem_cons, not_or] at h
    have hr := ih h.2
    rw [jsIndexOf, if_neg (fun hx => h.1 hx.symm)]
    simp only [if_pos hr]
    omega

theorem eraseFirstOccurrence_of_not_mem {v : JSValue} {l : List JSValue}
    (h : v ∉ l) : eraseFirstOccurrence v l = l := by
  induction l with
  | nil => rfl
  | cons x xs ih =>
    rw [List.mem_cons, not_or] at h
    rw [eraseFirstOccurrence, if_neg (fun hx => h.1 hx.symm), ih h.2]

theorem mem_of_mem_eraseFirstOccurrence {v w : JSValue} {l : List JSValue}
    (h : w ∈ eraseFirstOccurrence v l) : w ∈ l := by
  induction l with
  | nil => simp [eraseFirstOccurrence] at h
  | cons x xs ih =>
    rw [eraseFirstOccurrence] at h
    by_cases hx : x = v
    · rw [if_pos hx] at h
      exact List.mem_cons_of_mem _ h
    · rw [if_neg hx] at h
      rcases List.mem_cons.mp h with h1 | h2
      · exact h1 ▸ List.mem_cons_self _ _
      · exact List.mem_cons_of_mem _ (ih h2)

theorem eraseFirstOccurrence_append_cons {v : JSValue} {l rest : List JSValue}
    (h : v ∉ l) : eraseFirstOccurrence v (l ++ v :: rest) = l ++ rest := by
  induction l with
  | nil => simp [eraseFirstOccurrence]
  | cons x xs ih =>
    rw [List.mem_cons, not_or] at h
    rw [List.cons_append, eraseFirstOccurrence, if_neg (fun hx => h.1 hx.symm),
      ih h.2, List.cons_append]

theorem runHandlers_ok (A : String) (l : List JSValue)
    (hl : ∀ v ∈ l, jsTypeofIsFunction v = true) :
    runHandlers A l = .ok (l.map (fun g => (g, A))) := by
  induction l with
  | nil => rfl
  | cons h rest ih =>
    have hh := hl h (List.mem_cons_self h rest)
    cases h with
    | nonFunc s => simp [jsTypeofIsFunction] at hh
    | func i =>
      simp only [runHandlers, List.map_cons]
      rw [ih (fun v hv => hl v (List.mem_cons_of_mem _ hv))]

theorem count_pair_map (l : List JSValue) (h : JSValue) (A : String) :
    (l.map (fun g => (g, A))).count (h, A) = l.count h := by
  induction l with
  | nil => rfl
  | cons x xs ih =>
    simp only [List.map_cons, List.count_cons, ih]
    by_cases hx : h = x <;> simp [hx]

/-! ### Lemmas about property reads, `put` and `remove` -/

theorem Multimap.read_array_own {m : Multimap} {k : String} {l : List JSValue}
    (h : m.read k = .array l) : m k = some l := by
  unfold Multimap.read at h
  cases hm : m k with
  | some l0 =>
    rw [hm] at h
    change JSProp.array l0 = JSProp.array l at h
    injection h with h
    rw [h]
  | none =>
    rw [hm] at h
    change (if objectPrototypeKeys.contains k then JSProp.inherited else JSProp.undefined)
      = JSProp.array l at h
    split at h <;> exact JSProp.noConfusion h

theorem Multimap.own_read_array {m : Multimap} {k : String} {l : List JSValue}
    (h : m k = some l) : m.read k = .array l := by
  unfold Multimap.read
  rw [h]

theorem Multimap.read_congr {m m2 : Multimap} {k : String}
    (h : m2 k = m k) : m2.read k = m.read k := by
  unfold Multimap.read
  rw [h]

theorem Multimap.put_of_read_undef {m : Multimap} {k : String} (v : JSValue)
    (h : m.read k = .undefined) :
    m.put k v = .ok (fun k2 => if k2 = k then some [v] else m k2) := by
  unfold Multimap.put
  rw [h]

theorem Multimap.put_of_read_array {m : Multimap} {k : String} {array : List JSValue}
    (v : JSValue) (h : m.read k = .array array) :
    m.put k v = .ok (fun k2 => if k2 = k then some (array ++ [v]) else m k2) := by
  unfold Multimap.put
  rw [h]

theorem Multimap.put_of_read_inherited {m : Multimap} {k : String} (v : JSValue)
    (h : m.read k = .inherited) : m.put k v = .error .typeError := by
  unfold Multimap.put
  rw [h]

theorem Multimap.put_ok_read_self {m m2 : Multimap} {k : String} {v : JSValue}
    (h : m.put k v = .ok m2) : m2.read k = .array ((m.read k).arrayD ++ [v]) := by
  cases hr : m.read k with
  | undefined =>
    rw [Multimap.put_of_read_undef v hr] at h
    injection h with h
    subst h
    simp [Multimap.read, JSProp.arrayD]
  | array array =>
    rw [Multimap.put_of_read_array v hr] at h
    injection h with h
    subst h
    simp [Multimap.read, JSProp.arrayD]
  | inherited =>
    rw [Multimap.put_of_read_inherited v hr] at h
    exact absurd h (by simp)

theorem Multimap.put_ok_read_other {m m2 : Multimap} {k : String} {v : JSValue}
    (h : m.put k v = .ok m2) : ∀ k2, k2 ≠ k → m2.read k2 = m.read k2 := by
  intro k2 hk
  cases hr : m.read k with
  | undefined =>
    rw [Multimap.put_of_read_undef v hr] at h
    injection h with h
    subst h
    exact Multimap.read_congr (if_neg hk)
  | array array =>
    rw [Multimap.put_of_read_array v hr] at h
    injection h with h
    subst h
    exact Multimap.read_congr (if_neg hk)
  | inherited =>
    rw [Multimap.put_of_read_inherited v hr] at h
    exact absurd h (by simp)

theorem Multimap.remove_of_read_undef {m : Multimap} {k : String} (v : JSValue)
    (h : m.read k = .undefined) : m.remove k v = .ok m := by
  unfold Multimap.remove
  rw [h]

theorem Multimap.remove_of_read_inherited {m : Multimap} {k : String} (v : JSValue)
    (h : m.read k = .inherited) : m.remove k v = .error .typeError := by
  unfold Multimap.remove
  rw [h]

theorem Multimap.remove_read_array_spec {m : Multimap} {k : String} {array : List JSValue}
    (v : JSValue) (h : m.read k = .array array) :
    ∃ m2, m.remove k v = .ok m2 ∧
      m2.read k = .array (eraseFirstOccurrence v array) ∧
      ∀ k2, k2 ≠ k → m2.read k2 = m.read k2 := by
  by_cases hge : 0 ≤ jsIndexOf array v
  · refine ⟨fun k2 => if k2 = k then some (array.eraseIdx (jsIndexOf array v).toNat) else m k2,
      ?_, ?_, ?_⟩
    · unfold Multimap.remove
      rw [h]
      simp only [hge, if_true]
    · have he : array.eraseIdx (jsIndexOf array v).toNat = eraseFirstOccurrence v array := by
        have := jsIndexOf_eraseIdx v array
        rwa [if_pos hge] at this
      rw [show (fun k2 => if k2 = k then some (array.eraseIdx (jsIndexOf array v).toNat) else m k2)
          = fun k2 => if k2 = k then some (eraseFirstOccurrence v array) else m k2 by
        rw [he]]
      unfold Multimap.read
      simp
    · intro k2 hk
      exact Multimap.read_congr (if_neg hk)
  · refine ⟨m, ?_, ?_, fun k2 hk => rfl⟩
    · unfold Multimap.remove
      rw [h]
      simp only [hge, if_false]
    · have he : array = eraseFirstOccurrence v array := by
        have := jsIndexOf_eraseIdx v array
        rwa [if_neg hge] at this
      rw [h]
      exact congrArg JSProp.array he

theorem Multimap.remove_ok_read_other {m m2 : Multimap} {k : String} {v : JSValue}
    (h : m.remove k v = .ok m2) : ∀ k2, k2 ≠ k → m2.read k2 = m.read k2 := by
  intro k2 hk
  cases hr : m.read k with
  | undefined =>
    rw [Multimap.remove_of_read_undef v hr] at h
    injection h with h
    rw [h]
  | inherited =>
    rw [Multimap.remove_of_read_inherited v hr] at h
    exact absurd h (by simp)
  | array array =>
    obtain ⟨m3, hrem, _, hother⟩ := Multimap.remove_read_array_spec v hr
    rw [hrem] at h
    injection h with h
    subst h
    exact hother k2 hk

/-! ### Registry-level lemmas -/

theorem KeyBindings.applyOp_add_ok {kb kb2 : KeyBindings} {a : String} {h : JSValue}
    (hadd : kb.addEventHandler a h = .ok kb2) : kb.applyOp (.add a h) = kb2 := by
  simp only [KeyBindings.applyOp, hadd]

theorem KeyBindings.applyOp_add_error {kb : KeyBindings} {a : String} {h : JSValue}
    {e : JSError} (hadd : kb.addEventHandler a h = .error e) :
    kb.applyOp (.add a h) = kb := by
  simp only [KeyBindings.applyOp, hadd]

theorem KeyBindings.applyOp_rem_ok {kb kb2 : KeyBindings} {a : String} {h : JSValue}
    (hrem : kb.removeShortcutHandler a h = .ok kb2) : kb.applyOp (.rem a h) = kb2 := by
  simp only [KeyBindings.applyOp, hrem]

theorem KeyBindings.applyOp_rem_error {kb : KeyBindings} {a : String} {h : JSValue}
    {e : JSError} (hrem : kb.removeShortcutHandler a h = .error e) :
    kb.applyOp (.rem a h) = kb := by
  simp only [KeyBindings.applyOp, hrem]

theorem KeyBindings.addEventHandler_ok_elim {kb kb2 : KeyBindings} {A : String}
    {h : JSValue} (hok : kb.addEventHandler A h = .ok kb2) :
    jsTypeofIsFunction h = true ∧ kb.eventHandlers.put A h = .ok kb2.eventHandlers := by
  unfold KeyBindings.addEventHandler at hok
  by_cases hf : jsTypeofIsFunction h
  · rw [if_neg (by simp [hf])] at hok
    cases hput : kb.eventHandlers.put A h with
    | ok m =>
      rw [hput] at hok
      change Except.ok { kb with eventHandlers := m } = Except.ok kb2 at hok
      injection hok with hok
      subst hok
      exact ⟨hf, rfl⟩
    | error e =>
      rw [hput] at hok
      exact absurd hok (by simp)
  · rw [if_pos (by simpa using hf)] at hok
    exact absurd hok (by simp)

theorem KeyBindings.removeShortcutHandler_ok_elim {kb kb2 : KeyBindings} {A : String}
    {h : JSValue} (hok : kb.removeShortcutHandler A h = .ok kb2) :
    kb.eventHandlers.remove A h = .ok kb2.eventHandlers := by
  unfold KeyBindings.removeShortcutHandler at hok
  cases hrem : kb.eventHandlers.remove A h with
  | ok m =>
    rw [hrem] at hok
    change Except.ok { kb with eventHandlers := m } = Except.ok kb2 at hok
    injection hok with hok
    subst hok
    rfl
  | error e =>
    rw [hrem] at hok
    exact absurd hok (by simp)

theorem KeyBindings.removeShortcutHandler_of_remove_ok {kb : KeyBindings} {A : String}
    {h : JSValue} {m2 : Multimap} (hrem : kb.eventHandlers.remove A h = .ok m2) :
    kb.removeShortcutHandler A h = .ok { kb with eventHandlers := m2 } := by
  unfold KeyBindings.removeShortcutHandler
  rw [hrem]

theorem handle_array {m : Multimap} {A : String} {l : List JSValue}
    (hm : m.get A = .array l) : handle A m = runHandlers A l := by
  unfold handle
  rw [hm]

theorem arrayD_mem_allFunctions {m : Multimap} (hall : m.allFunctions) (A : String) :
    ∀ v ∈ (m.read A).arrayD, jsTypeofIsFunction v = true := by
  intro v hv
  cases hr : m.read A with
  | undefined =>
    rw [hr] at hv
    simp [JSProp.arrayD] at hv
  | inherited =>
    rw [hr] at hv
    simp [JSProp.arrayD] at hv
  | array l =>
    rw [hr] at hv
    simp only [JSProp.arrayD] at hv
    exact hall A l (Multimap.read_array_own hr) v hv

theorem Multimap.allFunctions_empty : Multimap.empty.allFunctions := by
  intro k l h
  exact Option.noConfusion h

theorem Multimap.allFunctions_put_ok {m m2 : Multimap} (hm : m.allFunctions)
    {v : JSValue} (hv : jsTypeofIsFunction v = true) {k : String}
    (hput : m.put k v = .ok m2) : m2.allFunctions := by
  intro k2 l hl w hw
  cases hr : m.read k with
  | undefined =>
    rw [Multimap.put_of_read_undef v hr] at hput
    injection hput with hput
    subst hput
    simp only [] at hl
    by_cases hk : k2 = k
    · rw [if_pos hk] at hl
      injection hl with hl
      subst hl
      rw [List.mem_singleton] at hw
      subst hw
      exact hv
    · rw [if_neg hk] at hl
      exact hm k2 l hl w hw
  | array array =>
    rw [Multimap.put_of_read_array v hr] at hput
    injection hput with hput
    subst hput
    simp only [] at hl
    by_cases hk : k2 = k
    · rw [if_pos hk] at hl
      injection hl with hl
      subst hl
      rcases List.mem_append.mp hw with h1 | h2
      · exact hm k array (Multimap.read_array_own hr) w h1
      · rw [List.mem_singleton] at h2
        subst h2
        exact hv
    · rw [if_neg hk] at hl
      exact hm k2 l hl w hw
  | inherited =>
    rw [Multimap.put_of_read_inherited v hr] at hput
    exact absurd hput (by simp)

theorem Multimap.allFunctions_remove_ok {m m2 : Multimap} (hm : m.allFunctions)
    {k : String} {v : JSValue} (hrem : m.remove k v = .ok m2) : m2.allFunctions := by
  intro k2 l hl w hw
  cases hr : m.read k with
  | undefined =>
    rw [Multimap.remove_of_read_undef v hr] at hrem
    injection hrem with hrem
    subst hrem
    exact hm k2 l hl w hw
  | inherited =>
    rw [Multimap.remove_of_read_inherited v hr] at hrem
    exact absurd hrem (by simp)
  | array array =>
    obtain ⟨m3, hrem3, hread3, hother3⟩ := Multimap.remove_read_array_spec v hr
    rw [hrem3] at hrem
    injection hrem with hrem
    rw [← hrem] at hl
    by_cases hk : k2 = k
    · subst hk
      have hown : m3 k2 = some (eraseFirstOccurrence v array) :=
        Multimap.read_array_own hread3
      rw [hown] at hl
      injection hl with hl
      subst hl
      exact hm k2 array (Multimap.read_array_own hr) w (mem_of_mem_eraseFirstOccurrence hw)
    · have hm2 : m.read k2 = .array l := by
        rw [← hother3 k2 hk]
        exact Multimap.own_read_array hl
      exact hm k2 l (Multimap.read_array_own hm2) w hw

theorem KeyBindings.allFunctions_applyOp {kb : KeyBindings}
    (hm : kb.eventHandlers.allFunctions) (op : RegOp) :
    (kb.applyOp op).eventHandlers.allFunctions := by
  cases op with
  | add a h =>
    cases hadd : kb.addEventHandler a h with
    | ok kb2 =>
      rw [KeyBindings.applyOp_add_ok hadd]
      obtain ⟨hf, hput⟩ := KeyBindings.addEventHandler_ok_elim hadd
      exact Multimap.allFunctions_put_ok hm hf hput
    | error e =>
      rw [KeyBindings.applyOp_add_error hadd]
      exact hm
  | rem a h =>
    cases hrem : kb.removeShortcutHandler a h with
    | ok kb2 =>
      rw [KeyBindings.applyOp_rem_ok hrem]
      exact Multimap.allFunctions_remove_ok hm (KeyBindings.removeShortcutHandler_ok_elim hrem)
    | error e =>
      rw [KeyBindings.applyOp_rem_error hrem]
      exact hm

theorem KeyBindings.allFunctions_applyOps {kb : KeyBindings}
    (hm : kb.eventHandlers.allFunctions) (ops : List RegOp) :
    (kb.applyOps ops).eventHandlers.allFunctions := by
  induction ops generalizing kb with
  | nil => exact hm
  | cons op ops ih =>
    exact ih (KeyBindings.allFunctions_applyOp hm op)

theorem KeyBindings.isArray_applyOp {kb : KeyBindings} {a : String}
    (hs : (kb.shortcutHandlers a).isArray = true) (op : RegOp) :
    ((kb.applyOp op).shortcutHandlers a).isArray = true := by
  have hexl : ∃ l, kb.eventHandlers.read a = .array l := by
    cases hr : kb.eventHandlers.read a with
    | array l => exact ⟨l, rfl⟩
    | undefined =>
      rw [show kb.shortcutHandlers a = kb.eventHandlers.read a from rfl, hr] at hs
      simp [JSProp.isArray] at hs
    | inherited =>
      rw [show kb.shortcutHandlers a = kb.eventHandlers.read a from rfl, hr] at hs
      simp [JSProp.isArray] at hs
  obtain ⟨l, hl⟩ := hexl
  cases op with
  | add b h =>
    cases hadd : kb.addEventHandler b h with
    | error e =>
      rw [KeyBindings.applyOp_add_error hadd]
      exact hs
    | ok kb2 =>
      rw [KeyBindings.applyOp_add_ok hadd]
      obtain ⟨hf, hput⟩ := KeyBindings.addEventHandler_ok_elim hadd
      show (kb2.eventHandlers.read a).isArray = true
      by_cases hb : a = b
      · subst hb
        rw [Multimap.put_ok_read_self hput]
        rfl
      · rw [Multimap.put_ok_read_other hput a hb, hl]
        rfl
  | rem b h =>
    cases hrem : kb.removeShortcutHandler b h with
    | error e =>
      rw [KeyBindings.applyOp_rem_error hrem]
      exact hs
    | ok kb2 =>
      rw [KeyBindings.applyOp_rem_ok hrem]
      have hrem2 := KeyBindings.removeShortcutHandler_ok_elim hrem
      show (kb2.eventHandlers.read a).isArray = true
      by_cases hb : a = b
      · subst hb
        obtain ⟨m3, hr3, hread3, _⟩ := Multimap.remove_read_array_spec h hl
        rw [hr3] at hrem2
        injection hrem2 with hrem2
        rw [← hrem2, hread3]
        rfl
      · rw [Multimap.remove_ok_read_other hrem2 a hb, hl]
        rfl

theorem KeyBindings.isArray_applyOps {kb : KeyBindings} {a : String}
    (hs : (kb.shortcutHandlers a).isArray = true) (ops : List RegOp) :
    ((kb.applyOps ops).shortcutHandlers a).isArray = true := by
  induction ops generalizing kb with
  | nil => exact hs
  | cons op ops ih =>
    exact ih (KeyBindings.isArray_applyOp hs op)

/-! ### Claims -/

/-- C1: The claim (like the class's own documentation) says that
dispatching an action for which no handler was ever registered invokes
nothing and raises no error. The code disagrees: on a fresh registry for
the binding `{action:"quit", keys:["mod+q","alt+q"]}` no handler is
registered for `"quit"`, `get("quit")` yields `undefined`, and
`undefined.forEach(...)` raises a TypeError inside the dispatch
callback. -/
theorem C1_dispatch_never_registered_action_raises :
    (KeyBindings.create [{ action := "quit", keys := Sum.inr ["mod+q", "alt+q"] }]).shortcutHandlers "quit" = .undefined ∧
    (KeyBindings.create [{ action := "quit", keys := Sum.inr ["mod+q", "alt+q"] }]).dispatch "quit"
      = .error .typeError :=
  ⟨rfl, rfl⟩

/-- C2: The claim says a non-invocable handler raises with the registry
unchanged (true, shown at `42`) and that an invocable handler never
raises. The code disagrees on the second clause:
`addEventHandler("toString", h)` with the function `h` passes the typeof
check, but `this.map["toString"]` is the truthy inherited
`Object.prototype.toString`, so `put` skips array creation and `.push`
on the non-array raises a TypeError — despite the method's own `@throws`
doc naming non-function handlers as the only throw. The registry is
unchanged by the failed call. -/
theorem C2_addEventHandler_prototype_action_raises :
    jsTypeofIsFunction (JSValue.func 0) = true ∧
    (KeyBindings.create []).addEventHandler "toString" (.func 0) = .error .typeError ∧
    (KeyBindings.create []).applyOp (.add "toString" (.func 0)) = KeyBindings.create [] ∧
    (KeyBindings.create []).addEventHandler "zoom-in" (.nonFunc "42")
      = .error (.thrown ((JSValue.nonFunc "42").display ++ " is not a function")) ∧
    (KeyBindings.create []).applyOp (.add "zoom-in" (.nonFunc "42")) = KeyBindings.create [] ∧
    ((KeyBindings.create []).addEventHandler "zoom-in" (.func 0)).map
        (fun kb2 => kb2.shortcutHandlers "zoom-in")
      = .ok (.array [JSValue.func 0]) :=
  ⟨rfl, rfl, rfl, rfl, rfl, rfl⟩

/-- C6: The claim says `remove` removes the first occurrence, is a no-op
for an unknown key or absent value, and never raises. The code disagrees
on "never raises" and on unknown keys shadowed by the prototype:
`remove("toString", v)` reads the truthy inherited
`Object.prototype.toString`, passes the `if (array)` test, and
`array.indexOf` on the function raises a TypeError. The other clauses
hold: an unknown non-prototype key is a silent no-op, an absent value is
a no-op, and a present value has its first occurrence removed;
`removeShortcutHandler` mirrors `remove` exactly. -/
theorem C6_remove_prototype_key_raises :
    Multimap.empty.remove "toString" (.func 0) = .error .typeError ∧
    Multimap.empty.remove "quit" (.func 0) = .ok Multimap.empty ∧
    Except.bind (Multimap.empty.put "a" (.func 0)) (fun m => m.remove "a" (.func 1))
      = Multimap.empty.put "a" (.func 0) ∧
    (Except.bind (Except.bind (Multimap.empty.put "a" (.func 0)) (fun m => m.put "a" (.func 1)))
        (fun m => m.remove "a" (.func 0))).map (fun m => m.get "a")
      = .ok (.array (eraseFirstOccurrence (.func 0) [JSValue.func 0, JSValue.func 1])) ∧
    (KeyBindings.create []).removeShortcutHandler "toString" (.func 0) = .error .typeError ∧
    (KeyBindings.create []).removeShortcutHandler "quit" (.func 0) = .ok (KeyBindings.create []) :=
  ⟨rfl, rfl, rfl, rfl, rfl, rfl⟩

/-- C7: The claim (like `get`'s own doc, "or undefined if the key is
unknown") says a never-put key yields the explicit absent result. The
code disagrees at keys inherited from `Object.prototype`:
`get("toString")` on a fresh map returns the inherited function, a value
distinct from `undefined`. At ordinary keys the claim's behaviour holds:
a never-put key is `undefined` and a put key yields its collection. -/
theorem C7_get_prototype_key_not_absent :
    Multimap.empty.get "toString" = .inherited ∧
    JSProp.inherited ≠ JSProp.undefined ∧
    Multimap.empty.get "zoom-in" = .undefined ∧
    (Multimap.empty.put "zoom-in" (.func 0)).map (fun m => m.get "zoom-in")
      = .ok (.array [JSValue.func 0]) :=
  ⟨rfl, by decide, rfl, rfl⟩

/-- C9: every value stored in an own array of the handler multimap of a
registry built by the constructor and then mutated by any sequence of
`addEventHandler`/`removeShortcutHandler` calls is a function:
`addEventHandler` validates before inserting, a call that throws (for a
non-function handler, or inside `put` for a prototype-shadowed action
name) changes nothing, and removal only deletes. -/
theorem C9_handlers_always_functions :
    ∀ (bindings : List Binding) (ops : List RegOp),
      ((KeyBindings.create bindings).applyOps ops).eventHandlers.allFunctions := by
  intro bindings ops
  exact KeyBindings.allFunctions_applyOps Multimap.allFunctions_empty ops

/-- C9 witness: the invariant holds on a concrete reachable registry,
including a rejected non-function add and an add at a prototype-shadowed
action name. -/
theorem C9_handlers_always_functions_witness :
    ((KeyBindings.create []).applyOps
        [RegOp.add "a" (.func 0), RegOp.add "a" (.nonFunc "42"),
          RegOp.add "toString" (.func 1)]).eventHandlers.allFunctions :=
  C9_handlers_always_functions []
    [RegOp.add "a" (.func 0), RegOp.add "a" (.nonFunc "42"), RegOp.add "toString" (.func 1)]

/-- C10: for distinct action names `A ≠ B`, an `addEventHandler` call on
`A` and a `removeShortcutHandler` call on `A` — whether they succeed or
throw — leave the handler collection of `B` unchanged. -/
theorem C10_frame_other_actions :
    ∀ (kb : KeyBindings) (A B : String) (h : JSValue), A ≠ B →
      (kb.applyOp (.add A h)).shortcutHandlers B = kb.shortcutHandlers B ∧
      (kb.applyOp (.rem A h)).shortcutHandlers B = kb.shortcutHandlers B := by
  intro kb A B h hAB
  have hBA : B ≠ A := fun hba => hAB hba.symm
  constructor
  · cases hadd : kb.addEventHandler A h with
    | error e => rw [KeyBindings.applyOp_add_error hadd]
    | ok kb2 =>
      rw [KeyBindings.applyOp_add_ok hadd]
      obtain ⟨hf, hput⟩ := KeyBindings.addEventHandler_ok_elim hadd
      show kb2.eventHandlers.read B = kb.eventHandlers.read B
      exact Multimap.put_ok_read_other hput B hBA
  · cases hrem : kb.removeShortcutHandler A h with
    | error e => rw [KeyBindings.applyOp_rem_error hrem]
    | ok kb2 =>
      rw [KeyBindings.applyOp_rem_ok hrem]
      show kb2.eventHandlers.read B = kb.eventHandlers.read B
      exact Multimap.remove_ok_read_other
        (KeyBindings.removeShortcutHandler_ok_elim hrem) B hBA

/-- C10 witness: a concrete add and remove on `"a"` leave the handlers
of `"b"` unchanged. -/
theorem C10_frame_other_actions_witness :
    (((KeyBindings.create []).applyOp (.add "a" (.func 0))).applyOp
          (.add "a" (.func 1))).shortcutHandlers "b"
        = ((KeyBindings.create []).applyOp (.add "a" (.func 0))).shortcutHandlers "b" ∧
    (((KeyBindings.create []).applyOp (.add "a" (.func 0))).applyOp
          (.rem "a" (.func 1))).shortcutHandlers "b"
        = ((KeyBindings.create []).applyOp (.add "a" (.func 0))).shortcutHandlers "b" :=
  C10_frame_other_actions ((KeyBindings.create []).applyOp (.add "a" (.func 0)))
    "a" "b" (.func 1) (by decide)

/-- C3 as stated is false on two counts. With `func 0` already
registered once for `"a"`, a further `addEventHandler("a", func 0)`
makes a dispatch of `"a"` invoke it twice, not exactly once. And at an
action name shadowed by `Object.prototype`, `addEventHandler("toString",
func 1)` with an invocable handler raises a TypeError inside `put` and
`handlersFor("toString")` gains nothing (it stays the inherited
non-collection value). -/
theorem C3_counterexample_prior_registration :
    jsTypeofIsFunction (JSValue.func 0) = true ∧
    (((KeyBindings.create []).applyOp (.add "a" (.func 0))).applyOp
        (.add "a" (.func 0))).dispatch "a"
      = .ok [(JSValue.func 0, "a"), (JSValue.func 0, "a")] ∧
    ([(JSValue.func 0, "a"), (JSValue.func 0, "a")] : List (JSValue × String)).count
        (JSValue.func 0, "a") ≠ 1 ∧
    jsTypeofIsFunction (JSValue.func 1) = true ∧
    (KeyBindings.create []).addEventHandler "toString" (.func 1) = .error .typeError ∧
    (KeyBindings.create []).applyOp (.add "toString" (.func 1)) = KeyBindings.create [] ∧
    (KeyBindings.create []).shortcutHandlers "toString" = .inherited :=
  ⟨rfl, rfl, by decide, rfl, rfl, rfl, rfl⟩

/-- C3 amended: when `addEventHandler(A, h)` with an invocable `h`
succeeds (which it does exactly when the action name is not shadowed by
an inherited `Object.prototype` property; at names like `"toString"` it
raises a TypeError and registers nothing), `handlersFor(A)` contains `h`
exactly once more than before the call, and a dispatch of `A` invokes
every registered handler once in order with argument `A` — so it invokes
`h` exactly once per registration, in particular exactly once when `h`
was not previously registered for `A`. Stated on a registry whose stored
handlers are all invocable (an invariant of every reachable registry). -/
theorem C3_amended_add_then_dispatch :
    ∀ (kb kb2 : KeyBindings) (A : String) (h : JSValue),
      jsTypeofIsFunction h = true →
      kb.eventHandlers.allFunctions →
      kb.addEventHandler A h = .ok kb2 →
      handlerCount (kb2.shortcutHandlers A) h = handlerCount (kb.shortcutHandlers A) h + 1 ∧
      kb2.dispatch A = .ok (((kb.shortcutHandlers A).arrayD ++ [h]).map (fun g => (g, A))) ∧
      (((kb.shortcutHandlers A).arrayD ++ [h]).map (fun g => (g, A))).count (h, A)
        = handlerCount (kb.shortcutHandlers A) h + 1 := by
  intro kb kb2 A h hf hall hadd
  obtain ⟨_, hput⟩ := KeyBindings.addEventHandler_ok_elim hadd
  have hread : kb2.eventHandlers.read A
      = .array ((kb.eventHandlers.read A).arrayD ++ [h]) :=
    Multimap.put_ok_read_self hput
  have hmem : ∀ v ∈ (kb.eventHandlers.read A).arrayD ++ [h],
      jsTypeofIsFunction v = true := by
    intro v hv
    rcases List.mem_append.mp hv with h1 | h2
    · exact arrayD_mem_allFunctions hall A v h1
    · rw [List.mem_singleton] at h2
      subst h2
      exact hf
  refine ⟨?_, ?_, ?_⟩
  · show handlerCount (kb2.eventHandlers.read A) h
      = handlerCount (kb.eventHandlers.read A) h + 1
    rw [hread]
    simp [handlerCount, JSProp.arrayD, List.count_append]
  · have hget : kb2.eventHandlers.get A
        = .array ((kb.eventHandlers.read A).arrayD ++ [h]) := hread
    show handle A kb2.eventHandlers
      = .ok (((kb.eventHandlers.read A).arrayD ++ [h]).map (fun g => (g, A)))
    rw [handle_array hget]
    exact runHandlers_ok A _ hmem
  · show (((kb.eventHandlers.read A).arrayD ++ [h]).map (fun g => (g, A))).count (h, A)
      = handlerCount (kb.eventHandlers.read A) h + 1
    rw [count_pair_map]
    simp [handlerCount, List.count_append]

/-- C3 amended witness at a fresh registry, action `"zoom"`, handler
`func 3`: one registration, dispatch invokes it exactly once with
argument `"zoom"`. -/
theorem C3_amended_add_then_dispatch_witness :
    handlerCount (((KeyBindings.create []).applyOp (.add "zoom" (.func 3))).shortcutHandlers "zoom")
        (.func 3)
      = handlerCount ((KeyBindings.create []).shortcutHandlers "zoom") (.func 3) + 1 ∧
    ((KeyBindings.create []).applyOp (.add "zoom" (.func 3))).dispatch "zoom"
      = .ok ((((KeyBindings.create []).shortcutHandlers "zoom").arrayD ++ [JSValue.func 3]).map
          (fun g => (g, "zoom"))) ∧
    ((((KeyBindings.create []).shortcutHandlers "zoom").arrayD ++ [JSValue.func 3]).map
          (fun g => (g, "zoom"))).count (JSValue.func 3, "zoom")
      = handlerCount ((KeyBindings.create []).shortcutHandlers "zoom") (.func 3) + 1 :=
  C3_amended_add_then_dispatch (KeyBindings.create [])
    ((KeyBindings.create []).applyOp (.add "zoom" (.func 3))) "zoom" (.func 3) rfl
    Multimap.allFunctions_empty rfl

/-- C4: handlers `h1, h2, h3` added to the same action in that order
(three successful `addEventHandler` calls) are invoked on dispatch in
exactly that order, after any previously registered handlers, each with
the action name as argument. Stated on a registry whose stored handlers
are all invocable (an invariant of every reachable registry). -/
theorem C4_fifo_dispatch_order :
    ∀ (kb kb1 kb2 kb3 : KeyBindings) (A : String) (h1 h2 h3 : JSValue),
      kb.eventHandlers.allFunctions →
      jsTypeofIsFunction h1 = true →
      jsTypeofIsFunction h2 = true →
      jsTypeofIsFunction h3 = true →
      kb.addEventHandler A h1 = .ok kb1 →
      kb1.addEventHandler A h2 = .ok kb2 →
      kb2.addEventHandler A h3 = .ok kb3 →
      kb3.dispatch A
        = .ok (((kb.shortcutHandlers A).arrayD ++ [h1, h2, h3]).map (fun g => (g, A))) := by
  intro kb kb1 kb2 kb3 A h1 h2 h3 hall hf1 hf2 hf3 ha1 ha2 ha3
  obtain ⟨_, hp1⟩ := KeyBindings.addEventHandler_ok_elim ha1
  obtain ⟨_, hp2⟩ := KeyBindings.addEventHandler_ok_elim ha2
  obtain ⟨_, hp3⟩ := KeyBindings.addEventHandler_ok_elim ha3
  have g1 : kb1.eventHandlers.read A
      = .array ((kb.eventHandlers.read A).arrayD ++ [h1]) :=
    Multimap.put_ok_read_self hp1
  have g2 : kb2.eventHandlers.read A
      = .array ((kb.eventHandlers.read A).arrayD ++ [h1] ++ [h2]) := by
    have hs := Multimap.put_ok_read_self hp2
    rw [g1] at hs
    simpa [JSProp.arrayD] using hs
  have g3 : kb3.eventHandlers.read A
      = .array ((kb.eventHandlers.read A).arrayD ++ [h1] ++ [h2] ++ [h3]) := by
    have hs := Multimap.put_ok_read_self hp3
    rw [g2] at hs
    simpa [JSProp.arrayD] using hs
  have hmem : ∀ v ∈ (kb.eventHandlers.read A).arrayD ++ [h1] ++ [h2] ++ [h3],
      jsTypeofIsFunction v = true := by
    intro v hv
    rcases List.mem_append.mp hv with hv | hv
    · rcases List.mem_append.mp hv with hv | hv
      · rcases List.mem_append.mp hv with hv | hv
        · exact arrayD_mem_allFunctions hall A v hv
        · rw [List.mem_singleton] at hv
          subst hv
          exact hf1
      · rw [List.mem_singleton] at hv
        subst hv
        exact hf2
    · rw [List.mem_singleton] at hv
      subst hv
      exact hf3
  have happ : (kb.eventHandlers.read A).arrayD ++ [h1] ++ [h2] ++ [h3]
      = (kb.eventHandlers.read A).arrayD ++ [h1, h2, h3] := by
    simp
  have hget : kb3.eventHandlers.get A
      = .array ((kb.eventHandlers.read A).arrayD ++ [h1] ++ [h2] ++ [h3]) := g3
  show handle A kb3.eventHandlers
    = .ok (((kb.eventHandlers.read A).arrayD ++ [h1, h2, h3]).map (fun g => (g, A)))
  rw [handle_array hget, runHandlers_ok A _ hmem, happ]

/-- C4 witness at a fresh registry: three handlers added to `"a"` in
order are dispatched in exactly that order. -/
theorem C4_fifo_dispatch_order_witness :
    ((((KeyBindings.create []).applyOp (.add "a" (.func 1))).applyOp
          (.add "a" (.func 2))).applyOp (.add "a" (.func 3))).dispatch "a"
      = .ok ((((KeyBindings.create []).shortcutHandlers "a").arrayD
          ++ [JSValue.func 1, JSValue.func 2, JSValue.func 3]).map (fun g => (g, "a"))) :=
  C4_fifo_dispatch_order (KeyBindings.create [])
    ((KeyBindings.create []).applyOp (.add "a" (.func 1)))
    (((KeyBindings.create []).applyOp (.add "a" (.func 1))).applyOp (.add "a" (.func 2)))
    ((((KeyBindings.create []).applyOp (.add "a" (.func 1))).applyOp
        (.add "a" (.func 2))).applyOp (.add "a" (.func 3)))
    "a" (.func 1) (.func 2) (.func 3)
    Multimap.allFunctions_empty rfl rfl rfl rfl rfl rfl

/-- C5: for a handler `h` with no prior registration for `A` (so that
its registrations are exactly the two below) and two successful
`addEventHandler(A, h)` calls, a dispatch of `A` invokes `h` exactly
twice; one `removeShortcutHandler(A, h)` then succeeds and leaves
exactly one registration of `h`, the remaining handlers keeping their
FIFO order (the prior handlers unchanged, `h` last). Stated on a
registry whose stored handlers are all invocable (an invariant of every
reachable registry). -/
theorem C5_double_registration_then_remove :
    ∀ (kb kb1 kb2 : KeyBindings) (A : String) (h : JSValue),
      kb.eventHandlers.allFunctions →
      jsTypeofIsFunction h = true →
      handlerCount (kb.shortcutHandlers A) h = 0 →
      kb.addEventHandler A h = .ok kb1 →
      kb1.addEventHandler A h = .ok kb2 →
      kb2.dispatch A
        = .ok (((kb.shortcutHandlers A).arrayD ++ [h, h]).map (fun g => (g, A))) ∧
      (((kb.shortcutHandlers A).arrayD ++ [h, h]).map (fun g => (g, A))).count (h, A) = 2 ∧
      (kb2.removeShortcutHandler A h).map (fun kb3 => kb3.shortcutHandlers A)
        = .ok (.array ((kb.shortcutHandlers A).arrayD ++ [h])) ∧
      (kb2.removeShortcutHandler A h).map (fun kb3 => handlerCount (kb3.shortcutHandlers A) h)
        = .ok 1 := by
  intro kb kb1 kb2 A h hall hf hzero ha1 ha2
  have hz : ((kb.eventHandlers.read A).arrayD).count h = 0 := hzero
  have hnotin : h ∉ (kb.eventHandlers.read A).arrayD := List.count_eq_zero.mp hz
  obtain ⟨_, hp1⟩ := KeyBindings.addEventHandler_ok_elim ha1
  obtain ⟨_, hp2⟩ := KeyBindings.addEventHandler_ok_elim ha2
  have g1 : kb1.eventHandlers.read A
      = .array ((kb.eventHandlers.read A).arrayD ++ [h]) :=
    Multimap.put_ok_read_self hp1
  have g2 : kb2.eventHandlers.read A
      = .array ((kb.eventHandlers.read A).arrayD ++ [h] ++ [h]) := by
    have hs := Multimap.put_ok_read_self hp2
    rw [g1] at hs
    simpa [JSProp.arrayD] using hs
  have hmem : ∀ v ∈ (kb.eventHandlers.read A).arrayD ++ [h] ++ [h],
      jsTypeofIsFunction v = true := by
    intro v hv
    rcases List.mem_append.mp hv with hv | hv
    · rcases List.mem_append.mp hv with hv | hv
      · exact arrayD_mem_allFunctions hall A v hv
      · rw [List.mem_singleton] at hv
        subst hv
        exact hf
    · rw [List.mem_singleton] at hv
      subst hv
      exact hf
  have happ : (kb.eventHandlers.read A).arrayD ++ [h] ++ [h]
      = (kb.eventHandlers.read A).arrayD ++ [h, h] := by
    simp
  have herase : eraseFirstOccurrence h ((kb.eventHandlers.read A).arrayD ++ [h, h])
      = (kb.eventHandlers.read A).arrayD ++ [h] := by
    have hsplit : (kb.eventHandlers.read A).arrayD ++ [h, h]
        = (kb.eventHandlers.read A).arrayD ++ h :: [h] := rfl
    rw [hsplit, eraseFirstOccurrence_append_cons hnotin]
  obtain ⟨m3, hrem3, hread3, _⟩ := Multimap.remove_read_array_spec h g2
  rw [happ, herase] at hread3
  have hrs : kb2.removeShortcutHandler A h = .ok { kb2 with eventHandlers := m3 } :=
    KeyBindings.removeShortcutHandler_of_remove_ok hrem3
  refine ⟨?_, ?_, ?_, ?_⟩
  · have hget : kb2.eventHandlers.get A
        = .array ((kb.eventHandlers.read A).arrayD ++ [h] ++ [h]) := g2
    show handle A kb2.eventHandlers
      = .ok (((kb.eventHandlers.read A).arrayD ++ [h, h]).map (fun g => (g, A)))
    rw [handle_array hget, runHandlers_ok A _ hmem, happ]
  · show (((kb.eventHandlers.read A).arrayD ++ [h, h]).map (fun g => (g, A))).count (h, A) = 2
    rw [count_pair_map]
    simp [List.count_append, List.count_cons, hz]
  · rw [hrs]
    show Except.ok (m3.read A)
      = Except.ok (JSProp.array ((kb.eventHandlers.read A).arrayD ++ [h]))
    rw [hread3]
  · rw [hrs]
    show Except.ok (handlerCount (m3.read A) h) = Except.ok 1
    rw [hread3]
    have hone : ((kb.eventHandlers.read A).arrayD ++ [h]).count h = 1 := by
      simp [List.count_append, hz]
    show Except.ok (((kb.eventHandlers.read A).arrayD ++ [h]).count h) = Except.ok 1
    rw [hone]

/-- C5 witness at a fresh registry, action `"a"`, handler `func 5`: two
registrations, dispatch invokes it twice, one removal succeeds and
leaves exactly one. -/
theorem C5_double_registration_then_remove_witness :
    (((KeyBindings.create []).applyOp (.add "a" (.func 5))).applyOp (.add "a" (.func 5))).dispatch "a"
      = .ok ((((KeyBindings.create []).shortcutHandlers "a").arrayD
          ++ [JSValue.func 5, JSValue.func 5]).map (fun g => (g, "a"))) ∧
    (((((KeyBindings.create []).shortcutHandlers "a").arrayD
          ++ [JSValue.func 5, JSValue.func 5]).map (fun g => (g, "a"))).count
        (JSValue.func 5, "a")) = 2 ∧
    ((((KeyBindings.create []).applyOp (.add "a" (.func 5))).applyOp
          (.add "a" (.func 5))).removeShortcutHandler "a" (.func 5)).map
        (fun kb3 => kb3.shortcutHandlers "a")
      = .ok (.array (((KeyBindings.create []).shortcutHandlers "a").arrayD ++ [JSValue.func 5])) ∧
    ((((KeyBindings.create []).applyOp (.add "a" (.func 5))).applyOp
          (.add "a" (.func 5))).removeShortcutHandler "a" (.func 5)).map
        (fun kb3 => handlerCount (kb3.shortcutHandlers "a") (.func 5))
      = .ok 1 :=
  C5_double_registration_then_remove (KeyBindings.create [])
    ((KeyBindings.create []).applyOp (.add "a" (.func 5)))
    (((KeyBindings.create []).applyOp (.add "a" (.func 5))).applyOp (.add "a" (.func 5)))
    "a" (.func 5) Multimap.allFunctions_empty rfl rfl rfl rfl

/-- C8: once a handler has been added for `A` (a successful
`addEventHandler`, which makes `A` an own key of the handler map),
`handlersFor(A)` stays an own (possibly empty) collection across any
further sequence of API calls — removal only splices the array and never
deletes the key — and dispatching `A` when the collection is drained to
`[]` invokes nothing and raises no error. -/
theorem C8_added_action_never_absent :
    ∀ (kb kb1 : KeyBindings) (A : String) (h : JSValue) (ops : List RegOp),
      kb.addEventHandler A h = .ok kb1 →
      (((kb1.applyOps ops).shortcutHandlers A).isArray = true ∧
        ((kb1.applyOps ops).shortcutHandlers A = .array [] →
          (kb1.applyOps ops).dispatch A = .ok [])) := by
  intro kb kb1 A h ops hadd
  obtain ⟨_, hput⟩ := KeyBindings.addEventHandler_ok_elim hadd
  have h0 : (kb1.shortcutHandlers A).isArray = true := by
    show (kb1.eventHandlers.read A).isArray = true
    rw [Multimap.put_ok_read_self hput]
    rfl
  constructor
  · exact KeyBindings.isArray_applyOps h0 ops
  · intro hempty
    show handle A (kb1.applyOps ops).eventHandlers = .ok []
    rw [handle_array hempty]
    rfl

/-- C8 witness: add `func 0` for `"a"`, then remove it; `handlersFor("a")`
is still an own collection (it is `some []` at the object level), and
dispatching the drained action yields the empty trace with no error. -/
theorem C8_added_action_never_absent_witness :
    ((((KeyBindings.create []).applyOp (.add "a" (.func 0))).applyOps
          [RegOp.rem "a" (.func 0)]).shortcutHandlers "a").isArray = true ∧
    ((((KeyBindings.create []).applyOp (.add "a" (.func 0))).applyOps
          [RegOp.rem "a" (.func 0)]).shortcutHandlers "a" = .array [] →
      (((KeyBindings.create []).applyOp (.add "a" (.func 0))).applyOps
          [RegOp.rem "a" (.func 0)]).dispatch "a" = .ok []) :=
  C8_added_action_never_absent (KeyBindings.create [])
    ((KeyBindings.create []).applyOp (.add "a" (.func 0))) "a" (.func 0)
    [RegOp.rem "a" (.func 0)] rfl
